import Mathlib

/-!
Shallow embedding of the `auto-header` VS Code extension (TypeScript) in Lean 4.

Modelling conventions, used throughout:

* Document texts are modelled as `List Char` (JavaScript strings are sequences
  of code units; all inputs considered here are ASCII, where the two views
  coincide).  `String` literals enter through `String.data`.
* Filesystem paths are modelled as lists of path segments (`List String`),
  already normalized.  `path.dirname` is `List.dropLast`, `path.join dir name`
  is `dir ++ [name]`, and rendering a relative path with forward slashes
  (the source's `.replace(/\\/g, '/')` after `path.join`) is
  `String.intercalate "/"`.
* `fs` effects are modelled with explicit state (`FSState`) and explicit
  failure oracles (`Bool` parameters standing for "the syscall throws"),
  mirroring the `try`/`catch` structure of the source.
* `Array.prototype.sort` with a comparator is modelled by the stable
  `List.insertionSort` on the relation "comparator does not return a positive
  number"; `String.prototype.localeCompare` is modelled as code-point
  lexicographic comparison (the two agree on the ASCII inputs appearing in
  the properties below).
* `vscode.Range` normalization (the constructor swaps `start` and `end` when
  `start` is after `end`) and `TextEditorEdit.replace` are modelled by
  `replaceRange` below.
-/

/-! ## Text utilities (JavaScript string primitives over `List Char`) -/

/-- JavaScript `split('\n')`: split a character list at every occurrence of
`sep`, keeping empty pieces. -/
def chSplit (sep : Char) : List Char → List (List Char)
  | [] => [[]]
  | c :: cs =>
    match chSplit sep cs with
    | [] => [[c]]
    | piece :: rest =>
      if c = sep then [] :: piece :: rest else (c :: piece) :: rest

/-- JavaScript `String.prototype.trim` (ASCII whitespace). -/
def chTrim (l : List Char) : List Char :=
  ((l.dropWhile Char.isWhitespace).reverse.dropWhile Char.isWhitespace).reverse

/-- JavaScript `String.prototype.includes`: substring containment. -/
def containsSubstr (needle : List Char) : List Char → Bool
  | [] => needle.isEmpty
  | c :: rest => needle.isPrefixOf (c :: rest) || containsSubstr needle rest

/-- The lines of a document text, as produced by `text.split('\n')`. -/
def docLines (text : List Char) : List (List Char) :=
  chSplit '\n' text

/-- Join lines with `'\n'` (JavaScript `array.join('\n')`). -/
def chJoinLines (ls : List (List Char)) : List Char :=
  (ls.intersperse ['\n']).flatten

/-- Character offset of the document position `(line, column)`, counting one
character for each `'\n'` separator, as in the host editor's text model. -/
def offsetOf (ls : List (List Char)) (p : Nat × Nat) : Nat :=
  (ls.take p.1).foldl (fun acc l => acc + l.length + 1) 0 + p.2

/-- Position order used by `vscode.Range` normalization. -/
def posLE (a b : Nat × Nat) : Bool :=
  a.1 < b.1 || (a.1 = b.1 && a.2 ≤ b.2)

/-- Model of `vscode.Range(a, b)` followed by `TextEditorEdit.replace(range, s)`:
the constructor swaps the endpoints when `a` is after `b`, and the edit
replaces the characters between the two (normalized) offsets by `s`. -/
def replaceRange (text : List Char) (a b : Nat × Nat) (s : List Char) : List Char :=
  let ls := docLines text
  let lo := if posLE a b then a else b
  let hi := if posLE a b then b else a
  text.take (offsetOf ls lo) ++ s ++ text.drop (offsetOf ls hi)

/-- Model of `TextEditorEdit.insert(Position(line, 0), s)`: insert `s` at the start of
`line` (clamped to the end of the document when the line is past the end). -/
def insertAtLine (text : List Char) (line : Nat) (s : List Char) : List Char :=
  let i := min (offsetOf (docLines text) (line, 0)) text.length
  text.take i ++ s ++ text.drop i

/-! ## Configuration (`src/config/configuration.ts`)

`AutoHeaderConfig`, restricted to the fields consumed by the functions
embedded below. -/

structure AutoHeaderConfig where
  headerExtensions : List String
  insertEmptyLineAfter : Bool
  includeFormat : String
  sortIncludes : Bool
  groupIncludesByType : Bool
deriving DecidableEq, Repr

/-! ## Include sorter (`src/utils/include-sorter.ts`) -/

/-- Model of `IncludeStatement` of `include-sorter.ts`, with `text` and `includePath`
as character lists. -/
structure IncludeStatement where
  lineNumber : Nat
  text : List Char
  isSystemInclude : Bool
  includePath : List Char
deriving DecidableEq, Repr

namespace IncludeSorterService

/-- Matcher for the regular expression
`/^\s*#\s*include\s*[<"]([^>"]*)[>"]/` of `include-sorter.ts` line 62:
returns the opening delimiter that matched the class `[<"]` together with the
captured path token (group 1), or `none` when the line does not match. -/
def matchInclude (l : List Char) : Option (Char × List Char) :=
  match l.dropWhile Char.isWhitespace with
  | '#' :: r =>
    let r1 := r.dropWhile Char.isWhitespace
    if ("include".data).isPrefixOf r1 then
      match (r1.drop 7).dropWhile Char.isWhitespace with
      | c :: rest =>
        if c = '<' ∨ c = '"' then
          let body := rest.takeWhile fun ch => ch ≠ '>' ∧ ch ≠ '"'
          if rest.dropWhile (fun ch => ch ≠ '>' ∧ ch ≠ '"') = [] then none
          else some (c, body)
        else none
      | [] => none
    else none
  | _ => none

/-- Model of `lines[i].includes('#include <')` — the classification used for the
`isSystemInclude` field (a substring test over the whole line). -/
def isSystemIncludeLine (l : List Char) : Bool :=
  containsSubstr ("#include <".data) l

/-- The scan of `sortIncludeStatements` (lines 64–91): walk the lines,
collecting the first contiguous run of include statements; blank lines inside
the run are tolerated, and the first non-blank non-include line after the run
ends the scan. `started` mirrors `includeBlockStart !== -1`. -/
def collectIncludeStatements : Nat → Bool → List (List Char) → List IncludeStatement
  | _, _, [] => []
  | i, started, l :: rest =>
    match matchInclude l with
    | some (_, p) =>
      { lineNumber := i, text := l, isSystemInclude := isSystemIncludeLine l,
        includePath := p } :: collectIncludeStatements (i + 1) true rest
    | none =>
      if started then
        if chTrim l = [] then collectIncludeStatements (i + 1) started rest
        else []
      else collectIncludeStatements (i + 1) false rest

/-- The comparator of `performSort` (lines 117–131) as an `Ordering`:
with grouping, a system include sorts before a user include; otherwise the
paths are compared with `localeCompare` (modelled as code-point lexicographic
comparison `pathCompare`). -/
def pathCompare : List Char → List Char → Ordering
  | [], [] => .eq
  | [], _ :: _ => .lt
  | _ :: _, [] => .gt
  | a :: as, b :: bs =>
    if a.toNat < b.toNat then .lt
    else if b.toNat < a.toNat then .gt
    else pathCompare as bs

def compareStatements (groupByType : Bool) (a b : IncludeStatement) : Ordering :=
  if groupByType && a.isSystemInclude && !b.isSystemInclude then .lt
  else if groupByType && !a.isSystemInclude && b.isSystemInclude then .gt
  else pathCompare a.includePath b.includePath

/-- The relation "the comparator does not return a positive number";
a stable sort by this relation is the result of the (stable)
`Array.prototype.sort` call of `performSort`. -/
def stmtLE (groupByType : Bool) (a b : IncludeStatement) : Prop :=
  compareStatements groupByType a b ≠ .gt

instance (g : Bool) : DecidableRel (stmtLE g) := fun a b =>
  inferInstanceAs (Decidable (compareStatements g a b ≠ .gt))

/-- The in-place `includeStatements.sort(...)` of `performSort`. -/
def sortStatements (groupByType : Bool) (stmts : List IncludeStatement) :
    List IncludeStatement :=
  List.insertionSort (stmtLE groupByType) stmts

def dummyStatement : IncludeStatement := ⟨0, [], false, []⟩

/-- Model of `performSort` (lines 110–151): sort the statements, then build the edit
whose start line is the (post-sort) first element's line number, whose end
position is the end of the (post-sort) last element's line, and whose
replacement text is the newline-join of the sorted statement texts; apply it
through the host's range normalization.  Returns `(true, new text)`. -/
def performSort (groupByType : Bool) (stmts : List IncludeStatement)
    (lines : List (List Char)) (text : List Char) : Bool × List Char :=
  let sorted := sortStatements groupByType stmts
  let startLine := (sorted.getD 0 dummyStatement).lineNumber
  let endLine := (sorted.getD (sorted.length - 1) dummyStatement).lineNumber
  let endChar := (lines.getD endLine []).length
  let sortedText := chJoinLines (sorted.map (·.text))
  (true, replaceRange text (startLine, 0) (endLine, endChar) sortedText)

/-- The edit endpoints computed by `performSort` before range normalization
(`startLine` of line 135, `endLine` of line 136). -/
def performSortEditLines (groupByType : Bool) (stmts : List IncludeStatement) :
    Nat × Nat :=
  let sorted := sortStatements groupByType stmts
  ((sorted.getD 0 dummyStatement).lineNumber,
   (sorted.getD (sorted.length - 1) dummyStatement).lineNumber)

/-- Model of `sortIncludeStatements` (lines 46–100), at the document level: returns
whether a sort edit was performed together with the resulting document text. -/
def sortIncludeStatements (cfg : AutoHeaderConfig) (force : Bool)
    (text : List Char) : Bool × List Char :=
  if !(force || cfg.sortIncludes) then (false, text)
  else
    let lines := docLines text
    let stmts := collectIncludeStatements 0 false lines
    if stmts.length ≤ 1 then (false, text)
    else performSort cfg.groupIncludesByType stmts lines text

/-- Model of `findInsertPosition` (lines 23–38): the number of leading lines that,
after trimming, are empty or begin with `//`, `/*` or `*`. -/
def isSkippableLine (l : List Char) : Bool :=
  let t := chTrim l
  ("//".data).isPrefixOf t || ("/*".data).isPrefixOf t ||
    ("*".data).isPrefixOf t || t = []

def findInsertPositionLines : List (List Char) → Nat
  | [] => 0
  | l :: rest =>
    if isSkippableLine l then findInsertPositionLines rest + 1 else 0

def findInsertPosition (text : List Char) : Nat :=
  findInsertPositionLines (docLines text)

end IncludeSorterService

/-! ## Filesystem service (`src/utils/file-system.ts`)

Paths are segment lists.  The world is the set of existing paths (files and
directories alike — `fs.existsSync` does not distinguish them); the cache is
the `fsCache` association list.  The `Bool` oracles `mkdirOk` / `writeOk`
stand for "the corresponding syscall does not throw", mirroring the
`try`/`catch` blocks of the source; since every failure is caught and turned
into a `false` return value, the embedded functions are total. -/

structure FSState where
  cache : List (List String × Bool)
  world : List (List String)
deriving DecidableEq, Repr

namespace FileSystemService

/-- Model of `path.dirname` on a segment list. -/
def dirname (p : List String) : List String := p.dropLast

/-- All non-empty prefixes of a path: the directories created by
`fs.mkdirSync(p, { recursive: true })`. -/
def pathPrefixes (p : List String) : List (List String) :=
  (List.range p.length).map fun i => p.take (i + 1)

/-- Model of `fileExists` (lines 18–33): consult the cache; on a miss, query the
world and record the answer. -/
def fileExists (st : FSState) (p : List String) : Bool × FSState :=
  match st.cache.lookup p with
  | some b => (b, st)
  | none =>
    let e := st.world.contains p
    (e, { st with cache := (p, e) :: st.cache })

/-- Model of `clearCache` (lines 39–41). -/
def clearCache (st : FSState) : FSState := { st with cache := [] }

/-- Model of `ensureDirectoryExists` (lines 78–91): return `true` when the directory
already exists; otherwise create it (clearing the cache) when the `mkdir`
syscall succeeds, and return `false` (cache untouched) when it throws. -/
def ensureDirectoryExists (mkdirOk : Bool) (st : FSState) (p : List String) :
    Bool × FSState :=
  let (e, st1) := fileExists st p
  if e then (true, st1)
  else if mkdirOk then
    (true, clearCache { st1 with world := pathPrefixes p ++ st1.world })
  else (false, st1)

/-- Model of `writeFile` (lines 99–117): ensure the parent directory exists, then
write (adding the file to the world and clearing the cache); a thrown write
is caught and turned into a `false` return value. The file content plays no
role in the existence model and is not tracked. -/
def writeFile (mkdirOk writeOk : Bool) (st : FSState) (p : List String) :
    Bool × FSState :=
  let (ok, st1) := ensureDirectoryExists mkdirOk st (dirname p)
  if !ok then (false, st1)
  else if writeOk then
    (true, clearCache { st1 with world := p :: st1.world })
  else (false, st1)

/-- A cache entry is consistent when it records the world's actual answer. -/
def cacheConsistent (st : FSState) : Bool :=
  st.cache.all fun e => e.2 == st.world.contains e.1

end FileSystemService

/-! ## Header finder (`src/utils/header-finder.ts`, the current
`HeaderFinderService` referenced as `file-system.ts` lines 141–239)

Pure model: the filesystem is a fixed set of existing paths (`fs`), since
`findHeaderFile` only reads through `FileSystemService.fileExists`, whose
caching is observationally a memoization of the pure existence query. -/

structure FindResult where
  headerIncludePath : String
  headerFilePath : List String
  foundHeader : Bool
deriving DecidableEq, Repr

namespace HeaderFinderService

open FileSystemService (dirname)

/-- Model of `path.relative(root, p)` on normalized segment lists, followed by the
forward-slash rendering of `path.join(...).replace(/\\/g, '/')`. -/
def relativeSegments (root p : List String) : List String :=
  match root, p with
  | r :: rs, q :: qs => if r = q then relativeSegments rs qs
      else (r :: rs).map (fun _ => "..") ++ q :: qs
  | r :: rs, [] => (r :: rs).map fun _ => ".."
  | [], q => q

def renderPath (segs : List String) : String :=
  String.intercalate "/" segs

/-- Model of `findHeaderInDirectory` (lines 204–239): skip a non-existent directory;
otherwise try each configured header extension in priority order. -/
def tryExtensions (fs : List (List String)) (root dir : List String)
    (base : String) : List String → FindResult
  | [] => { headerIncludePath := "", headerFilePath := [], foundHeader := false }
  | ext :: rest =>
    let headerFilePath := dir ++ [base ++ ext]
    if fs.contains headerFilePath then
      { headerIncludePath := renderPath (relativeSegments root headerFilePath),
        headerFilePath := headerFilePath, foundHeader := true }
    else tryExtensions fs root dir base rest

def findHeaderInDirectory (fs : List (List String)) (cfg : AutoHeaderConfig)
    (root dir : List String) (base : String) : FindResult :=
  if !fs.contains dir then
    { headerIncludePath := "", headerFilePath := [], foundHeader := false }
  else tryExtensions fs root dir base cfg.headerExtensions

/-- The candidate directories of the five strategies of `findHeaderFile`
(lines 152–180), in order: (1) the source directory itself; (2)
`join(dirname(sourceDir), 'include')`; (3) `join(sourceDir, 'include')`;
(4) `join(parentDir, 'include')` where `parentDir = dirname(sourceDir)`;
(5) `join(dirname(sourceDir), 'headers')`. -/
def strategyDirs (sourceDir : List String) : List (List String) :=
  [sourceDir,
   dirname sourceDir ++ ["include"],
   sourceDir ++ ["include"],
   dirname sourceDir ++ ["include"],
   dirname sourceDir ++ ["headers"]]

/-- The strategy loop of lines 183–188: first strategy whose result has
`foundHeader` set. -/
def firstFound (fs : List (List String)) (cfg : AutoHeaderConfig)
    (root : List String) (base : String) : List (List String) → Option FindResult
  | [] => none
  | dir :: rest =>
    let r := findHeaderInDirectory fs cfg root dir base
    if r.foundHeader then some r else firstFound fs cfg root base rest

/-- Model of `findHeaderFile` (lines 141–199). -/
def findHeaderFile (fs : List (List String)) (cfg : AutoHeaderConfig)
    (root filePath : List String) (base : String) : FindResult :=
  let sourceDir := dirname filePath
  match firstFound fs cfg root base (strategyDirs sourceDir) with
  | some r => r
  | none =>
    let proposed := base ++ cfg.headerExtensions.headD ""
    { headerIncludePath := renderPath (relativeSegments root sourceDir ++ [proposed]),
      headerFilePath := sourceDir ++ [proposed],
      foundHeader := false }

end HeaderFinderService

/-! ## Command layer (`src/commands/header-commands.ts`)

`addHeaderIncludeDoc` embeds the document-editing tail of
`addHeaderInclude` (lines 82–112), taking the already-resolved include path
as input: build the include statement in the configured style, stop without
editing when it already occurs in the document text, otherwise insert it at
`findInsertPosition` (with a trailing blank line if configured) and run the
auto-sort.  The returned `Bool` records whether the insert edit was applied. -/

namespace HeaderCommands

/-- Lines 83–88: the include statement in the configured style. -/
def buildIncludeStatement (cfg : AutoHeaderConfig) (includePath : String) :
    List Char :=
  if cfg.includeFormat = "quotes" then
    ("#include \"" ++ includePath ++ "\"").data
  else
    ("#include <" ++ includePath ++ ">").data

def addHeaderIncludeDoc (cfg : AutoHeaderConfig) (includePath : String)
    (text : List Char) : Bool × List Char :=
  let stmt := buildIncludeStatement cfg includePath
  if containsSubstr stmt text then (false, text)
  else
    let pos := IncludeSorterService.findInsertPosition text
    let inserted := insertAtLine text pos
      (stmt ++ (if cfg.insertEmptyLineAfter then "\n\n".data else "\n".data))
    (true, (IncludeSorterService.sortIncludeStatements cfg false inserted).2)

end HeaderCommands


/-! ## Shared concrete examples -/

/-- A project with headers both beside the source (`proj/src/a.h`) and in the
sibling include directory (`proj/include/a.h`). -/
def exampleFs : List (List String) :=
  [["proj"], ["proj", "src"], ["proj", "include"],
   ["proj", "src", "a.h"], ["proj", "include", "a.h"]]

/-- The same project with no header anywhere. -/
def exampleFsNoHeaders : List (List String) := [["proj"], ["proj", "src"]]

/-- A configuration with header extensions `[.h, .hpp]` (priority order). -/
def exampleCfg : AutoHeaderConfig :=
  { headerExtensions := [".h", ".hpp"], insertEmptyLineAfter := true,
    includeFormat := "quotes", sortIncludes := false, groupIncludesByType := true }

/-! ## Claims about the header resolver -/

/-- Claim C1: `findHeaderFile` probes its candidate directories in a fixed
deterministic order with the source file's own directory first: whenever the
strategy-(1) lookup (the lookup in the source file's directory) finds a
header, `findHeaderFile` returns exactly that result, so it wins over
strategies (2)–(5).  In particular, for source `proj/src/a.cpp` with headers
at both `proj/src/a.h` and `proj/include/a.h`, the result is `proj/src/a.h`
(include path `src/a.h`). -/
theorem claim_C1 :
    (∀ (fs : List (List String)) (cfg : AutoHeaderConfig)
       (root filePath : List String) (base : String),
      (HeaderFinderService.findHeaderInDirectory fs cfg root
          (FileSystemService.dirname filePath) base).foundHeader = true →
      HeaderFinderService.findHeaderFile fs cfg root filePath base =
        HeaderFinderService.findHeaderInDirectory fs cfg root
          (FileSystemService.dirname filePath) base) ∧
    HeaderFinderService.findHeaderFile exampleFs exampleCfg
        ["proj"] ["proj", "src", "a.cpp"] "a" =
      { headerIncludePath := "src/a.h", headerFilePath := ["proj", "src", "a.h"],
        foundHeader := true } := by
  constructor
  · intro fs cfg root filePath base h
    simp [HeaderFinderService.findHeaderFile, HeaderFinderService.strategyDirs,
      HeaderFinderService.firstFound, h]
  · decide

/-- Witness for C1: in the example filesystem the strategy-(1) lookup does
find a header, and `findHeaderFile` returns it. -/
theorem claim_C1_witness :
    (HeaderFinderService.findHeaderInDirectory exampleFs exampleCfg ["proj"]
        (FileSystemService.dirname ["proj", "src", "a.cpp"]) "a").foundHeader = true ∧
    HeaderFinderService.findHeaderFile exampleFs exampleCfg
        ["proj"] ["proj", "src", "a.cpp"] "a" =
      HeaderFinderService.findHeaderInDirectory exampleFs exampleCfg ["proj"]
        (FileSystemService.dirname ["proj", "src", "a.cpp"]) "a" :=
  ⟨by decide, claim_C1.1 exampleFs exampleCfg ["proj"] ["proj", "src", "a.cpp"] "a" (by decide)⟩

/-- Claim C3, counterexample: For source directory `proj/src`, the fourth
directory probed by `findHeaderFile` is `proj/include` — the same directory
as the second strategy's, and not the `include` directory adjacent to the
source directory's parent (which would be `include` at the root level). -/
theorem claim_C3_counterexample :
    (HeaderFinderService.strategyDirs ["proj", "src"]).getD 3 [] = ["proj", "include"] ∧
    (HeaderFinderService.strategyDirs ["proj", "src"]).getD 1 [] = ["proj", "include"] ∧
    ¬ (HeaderFinderService.strategyDirs ["proj", "src"]).getD 3 [] =
        FileSystemService.dirname (FileSystemService.dirname ["proj", "src"]) ++ ["include"] := by
  decide

/-- Claim C3, amended: The fourth directory probed by `findHeaderFile` is
`join(dirname(sourceDir), 'include')` — the `include` directory adjacent to
the source directory itself — which is identical to the second strategy's
directory, so strategy (4) is redundant rather than distinct. -/
theorem claim_C3_amended :
    ∀ sourceDir : List String,
      (HeaderFinderService.strategyDirs sourceDir).getD 3 [] =
        FileSystemService.dirname sourceDir ++ ["include"] ∧
      (HeaderFinderService.strategyDirs sourceDir).getD 3 [] =
        (HeaderFinderService.strategyDirs sourceDir).getD 1 [] :=
  fun _ => ⟨rfl, rfl⟩

/-- The strategy loop returns `none` when every probed directory fails. -/
theorem firstFound_eq_none_of_all_not_found (fs : List (List String))
    (cfg : AutoHeaderConfig) (root : List String) (base : String) :
    ∀ dirs : List (List String),
      (∀ dir ∈ dirs,
        (HeaderFinderService.findHeaderInDirectory fs cfg root dir base).foundHeader = false) →
      HeaderFinderService.firstFound fs cfg root base dirs = none := by
  intro dirs
  induction dirs with
  | nil => intro _; rfl
  | cons d rest ih =>
    intro h
    have hd := h d (List.mem_cons_self d rest)
    simp [HeaderFinderService.firstFound, hd,
      ih fun x hx => h x (List.mem_cons_of_mem _ hx)]

/-- Claim C4: When no search strategy finds an existing header, the result has
`foundHeader = false` and proposes `<baseName><firstConfiguredHeaderExtension>`
in the source file's own directory, with the include path rendered relative
to the workspace root with forward-slash separators. -/
theorem claim_C4 :
    ∀ (fs : List (List String)) (cfg : AutoHeaderConfig)
      (root filePath : List String) (base e : String) (rest : List String),
      cfg.headerExtensions = e :: rest →
      (∀ dir ∈ HeaderFinderService.strategyDirs (FileSystemService.dirname filePath),
        (HeaderFinderService.findHeaderInDirectory fs cfg root dir base).foundHeader = false) →
      HeaderFinderService.findHeaderFile fs cfg root filePath base =
        { headerIncludePath := HeaderFinderService.renderPath
            (HeaderFinderService.relativeSegments root (FileSystemService.dirname filePath) ++
              [base ++ e]),
          headerFilePath := FileSystemService.dirname filePath ++ [base ++ e],
          foundHeader := false } := by
  intro fs cfg root filePath base e rest hexts hall
  have h := firstFound_eq_none_of_all_not_found fs cfg root base _ hall
  simp [HeaderFinderService.findHeaderFile, h, hexts]

/-- Witness for C4: with header extensions `[.h, .hpp]` and no header
anywhere, the "not found" default for `proj/src/a.cpp` proposes `a.h`
beside the source, include path `src/a.h`. -/
theorem claim_C4_witness :
    exampleCfg.headerExtensions = ".h" :: [".hpp"] ∧
    (∀ dir ∈ HeaderFinderService.strategyDirs
        (FileSystemService.dirname ["proj", "src", "a.cpp"]),
      (HeaderFinderService.findHeaderInDirectory exampleFsNoHeaders exampleCfg
          ["proj"] dir "a").foundHeader = false) ∧
    HeaderFinderService.findHeaderFile exampleFsNoHeaders exampleCfg
        ["proj"] ["proj", "src", "a.cpp"] "a" =
      { headerIncludePath := "src/a.h", headerFilePath := ["proj", "src", "a.h"],
        foundHeader := false } := by
  refine ⟨rfl, by decide, ?_⟩
  rw [claim_C4 exampleFsNoHeaders exampleCfg ["proj"] ["proj", "src", "a.cpp"]
    "a" ".h" [".hpp"] rfl (by decide)]
  decide

/-! ## Claims about the insert position and the sorter's no-op cases -/

theorem findInsertPositionLines_skips (ls : List (List Char)) :
    ∀ i, i < IncludeSorterService.findInsertPositionLines ls →
      IncludeSorterService.isSkippableLine (ls.getD i []) = true := by
  induction ls with
  | nil => intro i h; simp [IncludeSorterService.findInsertPositionLines] at h
  | cons l rest ih =>
    intro i h
    by_cases hl : IncludeSorterService.isSkippableLine l = true
    · cases i with
      | zero => simpa using hl
      | succ i' =>
        have hi : i' < IncludeSorterService.findInsertPositionLines rest := by
          simp only [IncludeSorterService.findInsertPositionLines, hl, if_true] at h
          omega
        simpa using ih i' hi
    · simp [IncludeSorterService.findInsertPositionLines, hl] at h

theorem findInsertPositionLines_stops (ls : List (List Char)) :
    IncludeSorterService.findInsertPositionLines ls < ls.length →
    IncludeSorterService.isSkippableLine
      (ls.getD (IncludeSorterService.findInsertPositionLines ls) []) = false := by
  induction ls with
  | nil => intro h; simp [IncludeSorterService.findInsertPositionLines] at h
  | cons l rest ih =>
    intro h
    by_cases hl : IncludeSorterService.isSkippableLine l = true
    · simp only [IncludeSorterService.findInsertPositionLines, hl, if_true,
        List.length_cons] at h ⊢
      simpa using ih (by omega)
    · have hl' : IncludeSorterService.isSkippableLine l = false := by
        simpa using hl
      simp [IncludeSorterService.findInsertPositionLines, hl']

/-- Claim C6: `findInsertPosition` returns the index of the first line that
(after trimming) is neither empty nor begins with `//`, `/*` or `*`: every
earlier line is skippable, the returned line (when it exists) is not, and on
the document `// license` / ` * continued` / blank / `int main()` it
returns 3. -/
theorem claim_C6 :
    (∀ (text : List Char) (i : Nat),
       i < IncludeSorterService.findInsertPosition text →
       IncludeSorterService.isSkippableLine ((docLines text).getD i []) = true) ∧
    (∀ text : List Char,
       IncludeSorterService.findInsertPosition text < (docLines text).length →
       IncludeSorterService.isSkippableLine
         ((docLines text).getD (IncludeSorterService.findInsertPosition text) []) = false) ∧
    IncludeSorterService.findInsertPosition
      ("// license\n * continued\n\nint main()\x7b\x7d".data) = 3 :=
  ⟨fun _ i h => findInsertPositionLines_skips _ i h,
   fun _ h => findInsertPositionLines_stops _ h,
   by decide⟩

/-- Witness for C6 at the concrete document: line 1 is skippable and line 3
(the returned index) is not. -/
theorem claim_C6_witness :
    (1 < IncludeSorterService.findInsertPosition
        ("// license\n * continued\n\nint main()\x7b\x7d".data) ∧
     IncludeSorterService.isSkippableLine
       ((docLines ("// license\n * continued\n\nint main()\x7b\x7d".data)).getD 1 []) = true) ∧
    (IncludeSorterService.findInsertPosition
        ("// license\n * continued\n\nint main()\x7b\x7d".data) <
      (docLines ("// license\n * continued\n\nint main()\x7b\x7d".data)).length ∧
     IncludeSorterService.isSkippableLine
       ((docLines ("// license\n * continued\n\nint main()\x7b\x7d".data)).getD
         (IncludeSorterService.findInsertPosition
           ("// license\n * continued\n\nint main()\x7b\x7d".data)) []) = false) :=
  ⟨⟨by decide, claim_C6.1 _ 1 (by decide)⟩, ⟨by decide, claim_C6.2.1 _ (by decide)⟩⟩

/-- Claim C7: `sortIncludeStatements` returns `false` and leaves the document
text unchanged whenever the first contiguous include run contains zero or one
statements, and also whenever sorting is neither forced nor enabled by
configuration. -/
theorem claim_C7 :
    ∀ (cfg : AutoHeaderConfig) (force : Bool) (text : List Char),
      (IncludeSorterService.collectIncludeStatements 0 false (docLines text)).length ≤ 1 ∨
        (force = false ∧ cfg.sortIncludes = false) →
      IncludeSorterService.sortIncludeStatements cfg force text = (false, text) := by
  intro cfg force text h
  rcases h with h | ⟨hf, hs⟩
  · unfold IncludeSorterService.sortIncludeStatements
    split
    · rfl
    · simp [h]
  · simp [IncludeSorterService.sortIncludeStatements, hf, hs]

/-- Witness for C7: a document whose run contains exactly one include line is
returned unchanged with result `false`, even with sorting forced. -/
theorem claim_C7_witness :
    (IncludeSorterService.collectIncludeStatements 0 false
        (docLines ("#include <a.h>\nint x;".data))).length ≤ 1 ∧
    IncludeSorterService.sortIncludeStatements exampleCfg true
        ("#include <a.h>\nint x;".data) =
      (false, "#include <a.h>\nint x;".data) :=
  ⟨by decide, claim_C7 exampleCfg true ("#include <a.h>\nint x;".data) (Or.inl (by decide))⟩

/-! ## Claims about the sort comparator (C2) -/

theorem pathCompare_swap :
    ∀ a b : List Char,
      IncludeSorterService.pathCompare b a = (IncludeSorterService.pathCompare a b).swap := by
  intro a
  induction a with
  | nil => intro b; cases b <;> rfl
  | cons x as ih =>
    intro b
    cases b with
    | nil => rfl
    | cons y bs =>
      simp only [IncludeSorterService.pathCompare]
      by_cases h1 : x.toNat < y.toNat
      · rw [if_neg (show ¬y.toNat < x.toNat by omega), if_pos h1, if_pos h1]; rfl
      · by_cases h2 : y.toNat < x.toNat
        · rw [if_pos h2, if_neg h1, if_pos h2]; rfl
        · rw [if_neg h2, if_neg h1, if_neg h1, if_neg h2]
          exact ih bs

theorem pathCompare_le_trans :
    ∀ a b c : List Char,
      IncludeSorterService.pathCompare a b ≠ .gt →
      IncludeSorterService.pathCompare b c ≠ .gt →
      IncludeSorterService.pathCompare a c ≠ .gt := by
  intro a
  induction a with
  | nil => intro b c _ _; cases c <;> simp [IncludeSorterService.pathCompare]
  | cons x as ih =>
    intro b c h1 h2
    cases b with
    | nil => simp [IncludeSorterService.pathCompare] at h1
    | cons y bs =>
      cases c with
      | nil => simp [IncludeSorterService.pathCompare] at h2
      | cons z cs =>
        simp only [IncludeSorterService.pathCompare] at h1 h2 ⊢
        by_cases hxy : x.toNat < y.toNat
        · by_cases hyz : y.toNat < z.toNat
          · rw [if_pos (by omega)]; simp
          · by_cases hzy : z.toNat < y.toNat
            · rw [if_neg hyz, if_pos hzy] at h2; exact absurd rfl h2
            · rw [if_pos (by omega)]; simp
        · by_cases hyx : y.toNat < x.toNat
          · rw [if_neg hxy, if_pos hyx] at h1; exact absurd rfl h1
          · by_cases hyz : y.toNat < z.toNat
            · rw [if_pos (by omega)]; simp
            · by_cases hzy : z.toNat < y.toNat
              · rw [if_neg hyz, if_pos hzy] at h2; exact absurd rfl h2
              · rw [if_neg hxy, if_neg hyx] at h1
                rw [if_neg hyz, if_neg hzy] at h2
                rw [if_neg (by omega), if_neg (by omega)]
                exact ih bs cs h1 h2

theorem compareStatements_swap (g : Bool) (a b : IncludeStatement) :
    IncludeSorterService.compareStatements g b a =
      (IncludeSorterService.compareStatements g a b).swap := by
  unfold IncludeSorterService.compareStatements
  cases g <;> cases ha : a.isSystemInclude <;> cases hb : b.isSystemInclude <;>
    simp [ha, hb, Ordering.swap] <;> exact pathCompare_swap _ _

theorem compareStatements_le_trans (g : Bool) (a b c : IncludeStatement) :
    IncludeSorterService.compareStatements g a b ≠ .gt →
    IncludeSorterService.compareStatements g b c ≠ .gt →
    IncludeSorterService.compareStatements g a c ≠ .gt := by
  intro h1 h2
  unfold IncludeSorterService.compareStatements at h1 h2 ⊢
  cases g <;> cases ha : a.isSystemInclude <;> cases hb : b.isSystemInclude <;>
      cases hc : c.isSystemInclude <;>
    simp [ha, hb, hc] at h1 h2 ⊢ <;>
    exact pathCompare_le_trans _ _ _ h1 h2

instance stmtLE_isTotal (g : Bool) :
    IsTotal IncludeStatement (IncludeSorterService.stmtLE g) := by
  constructor
  intro a b
  unfold IncludeSorterService.stmtLE
  rcases h : IncludeSorterService.compareStatements g a b with _ | _ | _
  · left; simp [h]
  · left; simp [h]
  · right; rw [compareStatements_swap, h]; simp [Ordering.swap]

instance stmtLE_isTrans (g : Bool) :
    IsTrans IncludeStatement (IncludeSorterService.stmtLE g) :=
  ⟨fun a b c => compareStatements_le_trans g a b c⟩

theorem sortStatements_sorted (g : Bool) (stmts : List IncludeStatement) :
    List.Sorted (IncludeSorterService.stmtLE g)
      (IncludeSorterService.sortStatements g stmts) :=
  List.sorted_insertionSort _ _

theorem sortStatements_pairwise (g : Bool) (stmts : List IncludeStatement)
    (i j : Nat) (hij : i < j)
    (hj : j < (IncludeSorterService.sortStatements g stmts).length) :
    IncludeSorterService.stmtLE g
      ((IncludeSorterService.sortStatements g stmts).getD i
        IncludeSorterService.dummyStatement)
      ((IncludeSorterService.sortStatements g stmts).getD j
        IncludeSorterService.dummyStatement) := by
  have hi : i < (IncludeSorterService.sortStatements g stmts).length :=
    Nat.lt_trans hij hj
  have h := (sortStatements_sorted g stmts).rel_get_of_lt
    (a := ⟨i, hi⟩) (b := ⟨j, hj⟩) (Fin.mk_lt_mk.mpr hij)
  rw [List.getD_eq_getElem _ _ hi, List.getD_eq_getElem _ _ hj]
  simpa using h

theorem stmtLE_path_of_flagEq (g : Bool) (a b : IncludeStatement)
    (h : IncludeSorterService.stmtLE g a b)
    (hflag : g = true → a.isSystemInclude = b.isSystemInclude) :
    IncludeSorterService.pathCompare a.includePath b.includePath ≠ .gt := by
  unfold IncludeSorterService.stmtLE IncludeSorterService.compareStatements at h
  cases g
  · simpa using h
  · have heq := hflag rfl
    cases hsa : a.isSystemInclude
    · have hsb : b.isSystemInclude = false := by rw [← heq, hsa]
      simpa [hsa, hsb] using h
    · have hsb : b.isSystemInclude = true := by rw [← heq, hsa]
      simpa [hsa, hsb] using h

theorem stmtLE_sys_of_sys (a b : IncludeStatement)
    (h : IncludeSorterService.stmtLE true a b) (hb : b.isSystemInclude = true) :
    a.isSystemInclude = true := by
  by_contra hna
  have hsa : a.isSystemInclude = false := by simpa using hna
  unfold IncludeSorterService.stmtLE IncludeSorterService.compareStatements at h
  simp [hsa, hb] at h

/-- Claim C2, counterexample: The claim fails as stated: `# include <z.h>` is an
angle-bracket include (the regular expression matches it with opening
delimiter `<`), but its line does not contain the literal text
`#include <`, so `isSystemInclude` is `false` for it and, with grouping
enabled, it sorts *after* the quoted include `#include "a.h"` — an
angle-bracket include ordered after a quoted one. -/
theorem claim_C2_counterexample :
    IncludeSorterService.matchInclude ("# include <z.h>".data) =
      some ('<', "z.h".data) ∧
    IncludeSorterService.matchInclude ("#include \"a.h\"".data) =
      some ('"', "a.h".data) ∧
    (IncludeSorterService.sortStatements true
        (IncludeSorterService.collectIncludeStatements 0 false
          (docLines ("#include \"a.h\"\n# include <z.h>".data)))).map (·.text) =
      ["#include \"a.h\"".data, "# include <z.h>".data] ∧
    (IncludeSorterService.sortIncludeStatements
        { headerExtensions := [".h"], insertEmptyLineAfter := false,
          includeFormat := "quotes", sortIncludes := false, groupIncludesByType := true }
        true ("#include \"a.h\"\n# include <z.h>".data)).1 = true := by
  decide

/-- Claim C2, amended: When `sortIncludeStatements` sorts a run with grouping
enabled, every statement whose line contains the literal text `#include <`
(the code's `isSystemInclude` classification) is ordered before every
statement whose line does not; within each group — and globally when
grouping is disabled — statements are ordered by the path comparator
(`localeCompare`, modelled as code-point lexicographic comparison); the
output is a permutation of the input; and on the claim's example
`#include <b.h>`, `#include "a.h"`, `#include <a.h>` the sorted order is
`#include <a.h>`, `#include <b.h>`, `#include "a.h"`. -/
theorem claim_C2_amended :
    (∀ (stmts : List IncludeStatement) (i j : Nat), i < j →
      ∀ hj : j < (IncludeSorterService.sortStatements true stmts).length,
      ((IncludeSorterService.sortStatements true stmts).getD j
          IncludeSorterService.dummyStatement).isSystemInclude = true →
      ((IncludeSorterService.sortStatements true stmts).getD i
          IncludeSorterService.dummyStatement).isSystemInclude = true) ∧
    (∀ (g : Bool) (stmts : List IncludeStatement) (i j : Nat), i < j →
      ∀ hj : j < (IncludeSorterService.sortStatements g stmts).length,
      (g = true →
        ((IncludeSorterService.sortStatements g stmts).getD i
            IncludeSorterService.dummyStatement).isSystemInclude =
          ((IncludeSorterService.sortStatements g stmts).getD j
            IncludeSorterService.dummyStatement).isSystemInclude) →
      IncludeSorterService.pathCompare
        ((IncludeSorterService.sortStatements g stmts).getD i
          IncludeSorterService.dummyStatement).includePath
        ((IncludeSorterService.sortStatements g stmts).getD j
          IncludeSorterService.dummyStatement).includePath ≠ .gt) ∧
    (∀ (g : Bool) (stmts : List IncludeStatement),
      List.Perm (IncludeSorterService.sortStatements g stmts) stmts) ∧
    (IncludeSorterService.sortStatements true
        (IncludeSorterService.collectIncludeStatements 0 false
          (docLines ("#include <b.h>\n#include \"a.h\"\n#include <a.h>".data)))).map
        (·.text) =
      ["#include <a.h>".data, "#include <b.h>".data, "#include \"a.h\"".data] := by
  refine ⟨?_, ?_, ?_, by decide⟩
  · intro stmts i j hij hj hsys
    exact stmtLE_sys_of_sys _ _ (sortStatements_pairwise true stmts i j hij hj) hsys
  · intro g stmts i j hij hj hflag
    exact stmtLE_path_of_flagEq g _ _ (sortStatements_pairwise g stmts i j hij hj) hflag
  · intro g stmts
    exact List.perm_insertionSort _ _

/-- Witness for the amended C2, at the claim's own example: in the sorted
output the statement at index 0 is in the system group because the one at
index 1 is, and the system-group pair (indices 0, 1) is in path order. -/
theorem claim_C2_amended_witness :
    ((IncludeSorterService.sortStatements true
        (IncludeSorterService.collectIncludeStatements 0 false
          (docLines ("#include <b.h>\n#include \"a.h\"\n#include <a.h>".data)))).getD 0
        IncludeSorterService.dummyStatement).isSystemInclude = true ∧
    IncludeSorterService.pathCompare
      ((IncludeSorterService.sortStatements true
          (IncludeSorterService.collectIncludeStatements 0 false
            (docLines ("#include <b.h>\n#include \"a.h\"\n#include <a.h>".data)))).getD 0
          IncludeSorterService.dummyStatement).includePath
      ((IncludeSorterService.sortStatements true
          (IncludeSorterService.collectIncludeStatements 0 false
            (docLines ("#include <b.h>\n#include \"a.h\"\n#include <a.h>".data)))).getD 1
          IncludeSorterService.dummyStatement).includePath ≠ .gt :=
  ⟨claim_C2_amended.1 _ 0 1 (by decide) (by decide) (by decide),
   claim_C2_amended.2.1 true _ 0 1 (by decide) (by decide) (by decide)⟩

/-! ## Claims about the sort edit range (C5) and the include command (C9, C10) -/

/-- The configuration used by the edit-range evaluations: auto-sort enabled,
grouping enabled, quoted include style, no blank line after insertion. -/
def autoSortCfg : AutoHeaderConfig :=
  { headerExtensions := [".h"], insertEmptyLineAfter := false,
    includeFormat := "quotes", sortIncludes := true, groupIncludesByType := true }

/-- Claim C5, evaluation at the failing input:  On the two-line run
`#include <b.h>`, `#include <a.h>` the edit endpoints computed by
`performSort` are `startLine = 1`, `endLine = 0` — the line numbers of the
*sorted* first and last statements, not the first and last matched lines
(0 and 1) — and after the host's range normalization the resulting document
is garbled rather than the reordered run. -/
theorem claim_C5_bug_eval :
    IncludeSorterService.performSortEditLines true
      (IncludeSorterService.collectIncludeStatements 0 false
        (docLines ("#include <b.h>\n#include <a.h>\nint x;".data))) = (1, 0) ∧
    IncludeSorterService.sortIncludeStatements autoSortCfg true
        ("#include <b.h>\n#include <a.h>\nint x;".data) =
      (true, "#include <b.h>#include <a.h>\n#include <b.h>#include <a.h>\nint x;".data) ∧
    ¬ (IncludeSorterService.sortIncludeStatements autoSortCfg true
        ("#include <b.h>\n#include <a.h>\nint x;".data)).2 =
        ("#include <a.h>\n#include <b.h>\nint x;".data) := by
  decide

/-- Claim C9, evaluation at the failing input:  With auto-sort enabled, a
single run of the include command on `#include <b.h>` / `#include <a.h>` /
`int x;` inserts `#include "s.h"` and then the inverted-range sort edit
leaves a document whose lines 0 and 2 are the *same* include line — two
copies of one include line after one run.  The second run is a no-op, as the
statement now occurs as a substring. -/
theorem claim_C9_bug_eval :
    HeaderCommands.addHeaderIncludeDoc autoSortCfg "s.h"
        ("#include <b.h>\n#include <a.h>\nint x;".data) =
      (true, ("#include \"s.h\"#include <a.h>\n#include <b.h>\n" ++
              "#include \"s.h\"#include <a.h>\nint x;").data) ∧
    (docLines (("#include \"s.h\"#include <a.h>\n#include <b.h>\n" ++
        "#include \"s.h\"#include <a.h>\nint x;").data)).getD 0 [] =
      (docLines (("#include \"s.h\"#include <a.h>\n#include <b.h>\n" ++
          "#include \"s.h\"#include <a.h>\nint x;").data)).getD 2 [] ∧
    IncludeSorterService.matchInclude
      ((docLines (("#include \"s.h\"#include <a.h>\n#include <b.h>\n" ++
          "#include \"s.h\"#include <a.h>\nint x;").data)).getD 0 []) ≠ none ∧
    HeaderCommands.addHeaderIncludeDoc autoSortCfg "s.h"
        (("#include \"s.h\"#include <a.h>\n#include <b.h>\n" ++
          "#include \"s.h\"#include <a.h>\nint x;").data) =
      (false, ("#include \"s.h\"#include <a.h>\n#include <b.h>\n" ++
               "#include \"s.h\"#include <a.h>\nint x;").data) := by
  decide

/-- Claim C10: The include command's duplicate detection is a substring test
over the whole document: `addHeaderInclude` reports "already included" and
makes no edit exactly when the built include-statement string occurs
anywhere as a substring of the document text — including inside a comment
(`// #include "a.h"`) or as part of a longer line (`xx#include "a.h"yy`). -/
theorem claim_C10 :
    (∀ (cfg : AutoHeaderConfig) (includePath : String) (text : List Char),
      HeaderCommands.addHeaderIncludeDoc cfg includePath text = (false, text) ↔
        containsSubstr (HeaderCommands.buildIncludeStatement cfg includePath) text = true) ∧
    HeaderCommands.addHeaderIncludeDoc exampleCfg "a.h"
        ("// #include \"a.h\"\nint x;".data) =
      (false, "// #include \"a.h\"\nint x;".data) ∧
    HeaderCommands.addHeaderIncludeDoc exampleCfg "a.h"
        ("xx#include \"a.h\"yy".data) =
      (false, "xx#include \"a.h\"yy".data) := by
  refine ⟨?_, by decide, by decide⟩
  intro cfg includePath text
  unfold HeaderCommands.addHeaderIncludeDoc
  by_cases h : containsSubstr (HeaderCommands.buildIncludeStatement cfg includePath) text = true
  · simp [h]
  · simp [h]

/-! ## Claims about the filesystem cache (C8) -/

theorem fileExists_preserves_consistent (st : FSState) (p : List String)
    (h : FileSystemService.cacheConsistent st = true) :
    FileSystemService.cacheConsistent (FileSystemService.fileExists st p).2 = true := by
  unfold FileSystemService.fileExists
  cases hl : st.cache.lookup p with
  | some b => simpa using h
  | none => simpa [FileSystemService.cacheConsistent] using h

/-- Claim C8, counterexample: The claim "if `writeFile` returns `false` the
existence cache is not invalidated" fails: starting from a non-empty cache,
with the parent directory missing, a successful `mkdir` followed by a failing
write returns `false` with the cache cleared (the clearing happened inside
`ensureDirectoryExists`). -/
theorem claim_C8_counterexample :
    (FileSystemService.writeFile true false ⟨[(["x"], false)], []⟩ ["d", "f"]).1 = false ∧
    (FileSystemService.writeFile true false ⟨[(["x"], false)], []⟩ ["d", "f"]).2.cache = [] ∧
    (⟨[(["x"], false)], []⟩ : FSState).cache ≠ [] := by
  decide

/-- Claim C8, amended: A successful `writeFile` always clears the existence
cache; and `writeFile` never leaves the cache inconsistent with the world:
every call preserves cache consistency (a `false` return leaves the cache
either untouched, extended by one correct probe entry, or — when the parent
directory was created before the write failed — cleared, which is
conservative).  Failures are caught and surface only as the `false` return
value. -/
theorem claim_C8_amended :
    ∀ (mkdirOk writeOk : Bool) (st : FSState) (p : List String),
      ((FileSystemService.writeFile mkdirOk writeOk st p).1 = true →
        (FileSystemService.writeFile mkdirOk writeOk st p).2.cache = []) ∧
      (FileSystemService.cacheConsistent st = true →
        FileSystemService.cacheConsistent
          (FileSystemService.writeFile mkdirOk writeOk st p).2 = true) := by
  intro mk wr st p
  constructor
  · intro h
    unfold FileSystemService.writeFile FileSystemService.ensureDirectoryExists at h ⊢
    rcases hfe : FileSystemService.fileExists st (FileSystemService.dirname p) with ⟨e, st1⟩
    cases e <;> cases mk <;> cases wr <;> simp_all [FileSystemService.clearCache]
  · intro hcons
    have h1 := fileExists_preserves_consistent st (FileSystemService.dirname p) hcons
    unfold FileSystemService.writeFile FileSystemService.ensureDirectoryExists
    rcases hfe : FileSystemService.fileExists st (FileSystemService.dirname p) with ⟨e, st1⟩
    rw [hfe] at h1
    cases e <;> cases mk <;> cases wr <;>
      simp_all [FileSystemService.clearCache, FileSystemService.cacheConsistent,
        FileSystemService.fileExists]

/-- Witness for the amended C8: a successful write clears the cache, and a
failing write preserves consistency, at a concrete consistent state. -/
theorem claim_C8_amended_witness :
    (FileSystemService.writeFile true true ⟨[(["x"], false)], []⟩ ["d", "f"]).1 = true ∧
    (FileSystemService.writeFile true true ⟨[(["x"], false)], []⟩ ["d", "f"]).2.cache = [] ∧
    FileSystemService.cacheConsistent ⟨[(["x"], false)], []⟩ = true ∧
    FileSystemService.cacheConsistent
      (FileSystemService.writeFile true false ⟨[(["x"], false)], []⟩ ["d", "f"]).2 = true :=
  ⟨by decide, (claim_C8_amended true true ⟨[(["x"], false)], []⟩ ["d", "f"]).1 (by decide),
   by decide, (claim_C8_amended true false ⟨[(["x"], false)], []⟩ ["d", "f"]).2 (by decide)⟩
